import Mathlib

/-!
Verification development for the uptime-monitor control plane
(`douglasmaringa/manager`).

The embedding below is a shallow translation of the probing/alerting
pipeline in `src/cronJobs/60minute.js` and of the read aggregators in
`src/routes/monitor.js`:

* Wall-clock reads (`new Date()` / `getTime()`) are modelled by an explicit
  clock `clock : Nat -> Int` which yields the millisecond timestamp of the
  i-th read inside one worker run, in source order:
  read 0 = `startTimestamp` (line 95), read 1 = `endTimestamp` (line 140),
  read 2 = the candidate event timestamp (line 170), read 3 = the prior
  event `endTime` (line 240), read 4 = the `updatedAt` bump (line 246),
  read 5 = `currentTime` inside `sendAlert` (line 277).
* The three outbound HTTP probe calls a worker can make (primary, failover
  after a primary error, verification) are modelled by three independent
  `Option AgentResp` parameters; `none` models an axios error (network
  failure, timeout, non-2xx). A response field such as
  `response?.data?.availability || null` is modelled as `Option String`
  where `none` stands for the `null` result of that coercion (absent,
  null or otherwise falsy field).
* Database writes performed by a worker are recorded as an ordered trace
  `List DbWrite`, in the order the `await ...save()` calls occur in the
  source.
* Mongo documents become Lean structures; ObjectIds become `Nat`.
-/

namespace Manager

/-- Parsed body of a monitor-agent response (`response.data`), after the
`|| null` coercions at `60minute.js` lines 148-150: `none` models a field
that is absent, `null`, or otherwise falsy. `status` and `output` model
`response.data.data.status` / `response.data.data.output` (line 172). -/
structure AgentResp where
  availability : Option String
  ping : Option String
  port : Option String
  status : Option String
  output : Option String
deriving Repr, DecidableEq

/-- Outcomes of the up-to-three HTTP calls one worker run can issue:
the primary probe (line 101), the failover probe after a primary error
(line 116), and the verification probe (line 191). `none` is an axios
error. -/
structure ProbeEnv where
  rPrimary : Option AgentResp
  rFailover : Option AgentResp
  rVerify : Option AgentResp
deriving Repr, DecidableEq

/-- An `UptimeEvent` document (`src/models/UptimeEvent.js`). -/
structure UptimeEvent where
  monitorId : Nat
  userId : Option Nat
  timestamp : Int
  endTime : Option Int
  type : String
  reason : Option String
  availability : String
  ping : String
  port : String
  responseTime : Int
  confirmedByAgent : Option String
deriving Repr, DecidableEq

/-- A `Monitor` document (`src/models/Monitor.js`); `user` is the owning
user's id (the populated `user` reference), `none` when the monitor has no
owning user. `alertFrequency = 0` models a falsy stored value (the schema
default is 1). -/
structure Monitor where
  id : Nat
  user : Option Nat
  url : String
  port : Nat
  type : String
  isPaused : Bool
  frequency : Nat
  alertFrequency : Nat
  lastAlertSentAt : Option Int
  updatedAt : Int
deriving Repr, DecidableEq

/-- An `Alert` document as inserted by `sendAlert` (lines 289-293). -/
structure AlertRec where
  userId : Nat
  monitorId : Nat
  url : String
deriving Repr, DecidableEq

/-- One database write performed by a worker run, in source order:
`uptimeEvent.save()` (line 236), `lastUptimeEvent.save()` after setting
`endTime` (lines 240-241), `Monitor.findByIdAndUpdate(_, {updatedAt})`
(line 246). -/
inductive DbWrite where
  | saveEvent (e : UptimeEvent)
  | setEndTime (t : Int)
  | bumpUpdatedAt (t : Int)
deriving Repr, DecidableEq

/-- The observable outcome of one worker run (one element of the
`monitors.map` fan-out, lines 62-247): the URLs probed in order, the
candidate event object (line 167), the ordered write trace, the
(fire-and-forget) `sendAlert` invocation with its arguments
`(monitor?.user?._id, url, monitor._id)`, whether the run threw the
`TypeError` of line 240 (`lastUptimeEvent` is `null`), and the advanced
round-robin index. -/
structure StepResult where
  probeUrls : List String
  candidate : Option UptimeEvent
  writes : List DbWrite
  alertCall : Option (Option Nat × String × Nat)
  crashed : Bool
  nextUrlIndex : Nat
deriving Repr, DecidableEq

/-- Latest recorded event of a monitor:
`UptimeEvent.findOne({monitor}).sort({timestamp: -1})` (lines 66-68).
Ties on `timestamp` keep the earlier-listed document. -/
def latestEventFor (events : List UptimeEvent) (mid : Nat) : Option UptimeEvent :=
  (events.filter (fun e => e.monitorId == mid)).foldl
    (fun acc e =>
      match acc with
      | none => some e
      | some b => if b.timestamp < e.timestamp then some e else some b)
    none

/-- Last recorded authoritative status (lines 70-82), including the
misspelled sentinel of the unreachable final branch (line 81). An
existing event always has nonempty enum fields, so `?.field || "Unknown"`
is modelled by `Option.map` plus `getD "Unknown"`. -/
def lastStatusOf (type : String) (le : Option UptimeEvent) : String :=
  if type == "web" then (le.map (fun e => e.availability)).getD "Unknown"
  else if type == "ping" then (le.map (fun e => e.ping)).getD "Unknown"
  else if type == "port" then (le.map (fun e => e.port)).getD "Unknown"
  else "unkown"

/-- Raw authoritative response field used by the save decision
(lines 154-160): the `else` branch covers `port` and any other type. -/
def rawAuthOf (type : String) (r : AgentResp) : Option String :=
  if type == "web" then r.availability
  else if type == "ping" then r.ping
  else r.port

/-- Save decision (lines 154-160): compare the raw response field against
the last recorded status string; `null === s` is false for every string
`s`, so `none` never equals `some s`. -/
def saveDecision (type : String) (r : AgentResp) (lastStatus : String) : Bool :=
  if type == "web" then !(r.availability == some lastStatus)
  else if type == "ping" then !(r.ping == some lastStatus)
  else !(r.port == some lastStatus)

/-- Normalization of line 173: `availability === "Up" ? "Up" : "Down"`. -/
def normAvail (x : Option String) : String :=
  if x == some "Up" then "Up" else "Down"

/-- Normalization of line 174: `ping === "Reachable" ? "Reachable" : "Unreachable"`. -/
def normPing (x : Option String) : String :=
  if x == some "Reachable" then "Reachable" else "Unreachable"

/-- Normalization of line 175: `port === "Open" ? "Open" : "Closed"`. -/
def normPort (x : Option String) : String :=
  if x == some "Open" then "Open" else "Closed"

/-- Candidate event construction (lines 167-178). `ts` is clock read 2,
`responseTime` the measured difference of reads 1 and 0, `confirmedBy`
the `response.config.url` of the request that produced `r`. -/
def buildCandidate (m : Monitor) (ts : Int) (r : AgentResp) (responseTime : Int)
    (confirmedBy : Option String) : UptimeEvent :=
  { monitorId := m.id
    userId := m.user
    timestamp := ts
    endTime := none
    type := m.type
    reason := if m.type == "web" then r.status else r.output
    availability := normAvail r.availability
    ping := normPing r.ping
    port := normPort r.port
    responseTime := responseTime
    confirmedByAgent := confirmedBy }

/-- Verification trigger (line 182):
`availability === "Down" || ping === "Unreachable" || port === "Closed"`.
`availability` and `ping` are the raw response fields; `port` is the
destructured `monitor.port` (a Number, line 63), so the third disjunct
compares a number with a string and is always false in JS. -/
def verifyTrigger (r : AgentResp) : Bool :=
  (r.availability == some "Down") || (r.ping == some "Unreachable") || false

/-- Agent URL read for the primary probe: `monitorUrlsFromDB[currentUrlIndex].url`
(line 89); out-of-range access is modelled by the empty string. -/
def selectedUrlOf (agents : List String) (idx : Nat) : String :=
  agents.getD idx ""

/-- First agent URL different from the primary selected URL: the
`monitorUrlsFromDB.find((urlObj) => urlObj.url !== selectedUrl)` used both
for failover (line 110) and for verification (line 184). -/
def altAgentOf (agents : List String) (idx : Nat) : Option String :=
  agents.find? (fun u => u != selectedUrlOf agents idx)

/-- Verification step (lines 181-211): when the trigger fires and an agent
different from the primary URL exists, the verification probe is issued to
it; on success strictly `availability` (normalized, line 205) and
`confirmedByAgent` (line 206) are overwritten; a verifier error is caught
and ignored (lines 207-209). Returns the (possibly updated) candidate and
the probe-URL trace extended with the verification target. -/
def applyVerification (agents : List String) (selectedUrl : String)
    (rVerify : Option AgentResp) (r : AgentResp) (cand : UptimeEvent)
    (urls : List String) : UptimeEvent × List String :=
  if verifyTrigger r then
    match agents.find? (fun u => u != selectedUrl) with
    | some altUrl =>
      match rVerify with
      | some v =>
        ({ cand with
            availability := normAvail v.availability
            confirmedByAgent := some altUrl }, urls ++ [altUrl])
      | none => (cand, urls ++ [altUrl])
    | none => (cand, urls)
  else (cand, urls)

/-- Alert dispatch decision (lines 213-232): `sendAlert` is invoked
(without `await`) when the candidate event's normalized field for the
monitor's type is adverse; the arguments are
`(monitor?.user?._id, url, monitor._id)`. -/
def alertDecision (m : Monitor) (cand : UptimeEvent) : Option (Option Nat × String × Nat) :=
  if m.type == "web" && cand.availability == "Down" then some (m.user, m.url, m.id)
  else if m.type == "ping" && cand.ping == "Unreachable" then some (m.user, m.url, m.id)
  else if m.type == "port" && cand.port == "Closed" then some (m.user, m.url, m.id)
  else none

/-- Tail of a worker run once some probe succeeded (lines 139-246).
`selectedUrl` is the primary URL (still used by the verification `find`),
`respUrl` is `response.config.url` of the successful request, `urlsSoFar`
the URLs probed so far. The write order is the source order: the new
event is saved first (line 236), then the prior event's `endTime` is set
to a fresh clock read and saved (lines 240-241), then `updatedAt` is
bumped (line 246). When `save` is true but no prior event exists, line
240 dereferences `null`: the event save has already happened, the
`TypeError` aborts the rest of the run (`crashed`), and `updatedAt` is
never bumped. -/
def afterResponse (agents : List String) (selectedUrl respUrl : String)
    (urlsSoFar : List String) (m : Monitor) (lastUptimeEvent : Option UptimeEvent)
    (resp : AgentResp) (rVerify : Option AgentResp) (clock : Nat → Int)
    (nextIdx : Nat) : StepResult :=
  let save := saveDecision m.type resp (lastStatusOf m.type lastUptimeEvent)
  let cand0 := buildCandidate m (clock 2) resp (clock 1 - clock 0) (some respUrl)
  let cv := applyVerification agents selectedUrl rVerify resp cand0 urlsSoFar
  let alertCall := alertDecision m cv.1
  if save then
    match lastUptimeEvent with
    | some _ =>
      { probeUrls := cv.2
        candidate := some cv.1
        writes := [DbWrite.saveEvent cv.1, DbWrite.setEndTime (clock 3),
          DbWrite.bumpUpdatedAt (clock 4)]
        alertCall := alertCall
        crashed := false
        nextUrlIndex := nextIdx }
    | none =>
      { probeUrls := cv.2
        candidate := some cv.1
        writes := [DbWrite.saveEvent cv.1]
        alertCall := alertCall
        crashed := true
        nextUrlIndex := nextIdx }
  else
    { probeUrls := cv.2
      candidate := some cv.1
      writes := [DbWrite.bumpUpdatedAt (clock 4)]
      alertCall := alertCall
      crashed := false
      nextUrlIndex := nextIdx }

/-- One worker run for one monitor: the body of the `monitors.map` callback
(lines 62-247). Primary probe to the round-robin agent; on a primary error
failover to the first agent with a different URL, and if that also errors
(or no such agent exists) the run returns early with no writes
(lines 100-134). -/
def processMonitor (agents : List String) (idx : Nat) (events : List UptimeEvent)
    (m : Monitor) (env : ProbeEnv) (clock : Nat → Int) : StepResult :=
  let lastUptimeEvent := latestEventFor events m.id
  let selectedUrl := selectedUrlOf agents idx
  let nextIdx := (idx + 1) % agents.length
  match env.rPrimary with
  | some resp =>
    afterResponse agents selectedUrl selectedUrl [selectedUrl] m lastUptimeEvent
      resp env.rVerify clock nextIdx
  | none =>
    match agents.find? (fun u => u != selectedUrl) with
    | none =>
      { probeUrls := [selectedUrl], candidate := none, writes := [],
        alertCall := none, crashed := false, nextUrlIndex := nextIdx }
    | some altUrl =>
      match env.rFailover with
      | none =>
        { probeUrls := [selectedUrl, altUrl], candidate := none, writes := [],
          alertCall := none, crashed := false, nextUrlIndex := nextIdx }
      | some resp =>
        afterResponse agents selectedUrl altUrl [selectedUrl, altUrl] m
          lastUptimeEvent resp env.rVerify clock nextIdx

/-- The response a worker run ends up using, if any: the primary response,
else (when an alternate agent exists) the failover response. -/
def respOf (agents : List String) (idx : Nat) (env : ProbeEnv) : Option AgentResp :=
  match env.rPrimary with
  | some r => some r
  | none =>
    match altAgentOf agents idx with
    | none => none
    | some _ => env.rFailover

/-- The `response.config.url` of the request whose response the run uses:
the primary URL, or the failover agent's URL on the failover path. -/
def respUrlOf (agents : List String) (idx : Nat) (env : ProbeEnv) : String :=
  match env.rPrimary with
  | some _ => selectedUrlOf agents idx
  | none => (altAgentOf agents idx).getD ""

/-- Modelled from the spec (section 4.2 result mapping together with
section 4.3): the natural-language spec's append predicate compares the
normalized fresh authoritative value against the authoritative field of
the last event, with sentinel "Unknown" when no prior event exists. Kept
separately from `saveDecision` (which is the source's comparison on raw
fields) so the two can be compared. -/
def specShouldAppend (kind : String) (r : AgentResp) (lastEvent : Option UptimeEvent) : Bool :=
  let freshAuth :=
    if kind == "web" then normAvail r.availability
    else if kind == "ping" then normPing r.ping
    else normPort r.port
  let lastAuth :=
    match lastEvent with
    | none => "Unknown"
    | some e =>
      if kind == "web" then e.availability
      else if kind == "ping" then e.ping
      else e.port
  freshAuth != lastAuth

/-- Alert throttle (`sendAlert`, lines 262-310). `monitorInDb` is the
result of `Monitor.findById(id)`; `now` is the `new Date()` of line 277.
`timeDifference` is `Infinity` when `lastAlertSentAt` is null, so the
throttle check passes. The missing-user check (line 282) returns before
any write. Returns the inserted alert (if any) and the updated monitor
document saved by `monitor.save()` (if any). -/
def sendAlert (userId : Option Nat) (url : String) (id : Nat)
    (monitorInDb : Option Monitor) (now : Int) : Option AlertRec × Option Monitor :=
  match monitorInDb with
  | none => (none, none)
  | some monitor =>
    let alertFrequency := if monitor.alertFrequency == 0 then 1 else monitor.alertFrequency
    match userId with
    | none => (none, none)
    | some uid =>
      let pass :=
        match monitor.lastAlertSentAt with
        | none => true
        | some t => decide ((alertFrequency : Int) * 60 * 1000 ≤ now - t)
      if pass then
        (some { userId := uid, monitorId := id, url := url },
          some { monitor with lastAlertSentAt := some now })
      else (none, none)

/-- Logical database state touched by one bucket tick: the monitor
collection, the uptime-event log and the alert queue. -/
structure TickState where
  monitors : List Monitor
  events : List UptimeEvent
  alerts : List AlertRec
deriving Repr, DecidableEq

/-- Due-set query of the 60-minute bucket (lines 45-49):
`frequency: 60, updatedAt <= now - 60min, isPaused: false`. -/
def dueFilter (now : Int) (m : Monitor) : Bool :=
  m.frequency == 60 && decide (m.updatedAt ≤ now - 3600000) && !m.isPaused

/-- Application of one recorded write to the database state. `mid` is the
id of the monitor being processed; `target` is the document the worker
fetched as `lastUptimeEvent` (whose `endTime` the `setEndTime` write
saves). -/
def applyWrite (mid : Nat) (target : Option UptimeEvent) (st : TickState) :
    DbWrite → TickState
  | DbWrite.saveEvent e => { st with events := st.events ++ [e] }
  | DbWrite.setEndTime t =>
    { st with events :=
        match target with
        | some le =>
          st.events.map (fun x => if x == le then { x with endTime := some t } else x)
        | none => st.events }
  | DbWrite.bumpUpdatedAt t =>
    { st with monitors :=
        st.monitors.map (fun x => if x.id == mid then { x with updatedAt := t } else x) }

/-- Effect of the fire-and-forget `sendAlert` call on the database:
the monitor is re-fetched by id, and the possible alert insert and
`lastAlertSentAt` update are applied. -/
def applyAlert (st : TickState) (call : Option (Option Nat × String × Nat))
    (now : Int) : TickState :=
  match call with
  | none => st
  | some (uid, url, id) =>
    let r := sendAlert uid url id (st.monitors.find? (fun x => x.id == id)) now
    let st1 :=
      match r.2 with
      | some mUpd =>
        { st with monitors :=
            st.monitors.map (fun x =>
              if x.id == id then { x with lastAlertSentAt := mUpd.lastAlertSentAt } else x) }
      | none => st
    match r.1 with
    | some a => { st1 with alerts := st1.alerts ++ [a] }
    | none => st1

/-- Effect of one worker run on the database state: the alert call is
applied (it is issued before the saves in the source, lines 213-232), then
the recorded writes in order. -/
def applyStep (st : TickState) (m : Monitor) (res : StepResult) (alertNow : Int) :
    TickState :=
  let target := latestEventFor st.events m.id
  let st1 := applyAlert st res.alertCall alertNow
  res.writes.foldl (applyWrite m.id target) st1

/-- Sequential processing of the due list: each worker run observes the
current event log, its writes are applied, the shared round-robin index
advances, and the probe count accumulates. `penv i` and `clocks i` are
the probe outcomes and the clock of the worker at position `i`; `clocks i 5`
is the wall-clock read inside its `sendAlert`. The source fans the page
out concurrently (`Promise.all`); the claims proved below do not depend
on the interleaving, so the fan-out is modelled sequentially. -/
def runDue (agents : List String) (penv : Nat → ProbeEnv) (clocks : Nat → Nat → Int) :
    List Monitor → Nat → Nat → TickState → Nat → TickState × Nat × Nat
  | [], _, idx, st, acc => (st, idx, acc)
  | m :: rest, i, idx, st, acc =>
    let res := processMonitor agents idx st.events m (penv i) (clocks i)
    runDue agents penv clocks rest (i + 1) res.nextUrlIndex
      (applyStep st m res (clocks i 5)) (acc + res.probeUrls.length)

/-- One 60-minute bucket tick (`performCronJob60`): abort when no monitor
agents are registered (lines 30-33), otherwise query the due set and run a
worker for each due monitor. Returns the new state, the advanced
round-robin index and the total number of probe requests issued. The
source's `while (hasMoreMonitors)` page loop re-runs the same query; one
selection pass is modelled. -/
def performTick (agents : List String) (penv : Nat → ProbeEnv)
    (clocks : Nat → Nat → Int) (now : Int) (st : TickState) (idx : Nat) :
    TickState × Nat × Nat :=
  if agents.isEmpty then (st, idx, 0)
  else runDue agents penv clocks (st.monitors.filter (dueFilter now)) 0 idx st 0

/-- Environment of one tick: the registered agent URLs, the probe outcomes
and clocks of the workers, and the tick's query time. -/
structure TickEnv where
  agents : List String
  penv : Nat → ProbeEnv
  clocks : Nat → Nat → Int
  now : Int

/-- Iterated ticks, threading the database state and the process-global
round-robin index. -/
def applyTicks : List TickEnv → TickState → Nat → TickState × Nat
  | [], st, idx => (st, idx)
  | e :: rest, st, idx =>
    let r := performTick e.agents e.penv e.clocks e.now st idx
    applyTicks rest r.1 r.2.1

/-- Up test of the aggregators (`monitor.js` line 230 and lines 582-584):
any of the three result fields positive. -/
def isUpEvent (e : UptimeEvent) : Bool :=
  e.availability == "Up" || e.ping == "Reachable" || e.port == "Open"

/-- Loop of `calculateAverageUptime` (lines 228-234): walk the events in
order, attributing the interval since the previous cursor to an event iff
that event tests up. -/
def sumUpTime (last : Int) : List UptimeEvent → Int
  | [] => 0
  | e :: es => (if isUpEvent e then e.timestamp - last else 0) + sumUpTime e.timestamp es

/-- Value of the `lastTimestamp` variable after the loop of
`calculateAverageUptime` (line 233): the last processed event's timestamp,
or the initial `startDate` cursor when no event was processed. -/
def lastTs (c : Int) (l : List UptimeEvent) : Int :=
  match l.getLast? with
  | some e => e.timestamp
  | none => c

/-- Rolling uptime aggregator `calculateAverageUptime(durationInDays, id)`
(`src/routes/monitor.js` lines 208-248). The source reads the wall clock
twice: `now0` is the `new Date()` of line 210, from which `startDate` is
derived, and `now1` is the later `new Date()` of line 238, used to extend
the last interval when the last window event tests up.
`setDate(getDate() - durationInDays)` subtracts calendar days; it is
modelled as subtracting exact 86400000-ms days (daylight-saving
deviations of the calendar window are not modelled). The Mongo query
`find({timestamp: {$gte: startDate}, monitor: id}).sort({timestamp: 1})`
is modelled as a filter over the time-ordered event log. The JS function
returns `averageUptime.toFixed(0)`; the value before that decimal
formatting is returned here, as an exact rational — the source applies no
clamp to it. -/
def calculateAverageUptime (durationInDays : Nat) (now0 now1 : Int) (id : Nat)
    (events : List UptimeEvent) : ℚ :=
  let startDate := now0 - (durationInDays : Int) * 86400000
  let uptimeEvents :=
    events.filter (fun e => e.monitorId == id && decide (startDate ≤ e.timestamp))
  if uptimeEvents.isEmpty then 100
  else
    let totalUpTime := sumUpTime startDate uptimeEvents +
      (match uptimeEvents.getLast? with
       | some e => if isUpEvent e then now1 - e.timestamp else 0
       | none => 0)
    let totalDuration : Int := (durationInDays : Int) * 86400000
    ((totalUpTime : ℚ) / (totalDuration : ℚ)) * 100

/-- Counters returned by `POST /monitoring/stats` (lines 596-601). -/
structure MonitorStats where
  up : Nat
  down : Nat
  paused : Nat
deriving Repr, DecidableEq

/-- One iteration of the stats loop (lines 570-592): paused monitors are
counted and skipped; otherwise the latest event decides up/down, with no
event counting as down. -/
def statsStep (events : List UptimeEvent) (acc : MonitorStats) (monitor : Monitor) :
    MonitorStats :=
  if monitor.isPaused then { acc with paused := acc.paused + 1 }
  else
    match latestEventFor events monitor.id with
    | none => { acc with down := acc.down + 1 }
    | some e =>
      if e.availability == "Up" || (e.ping == "Reachable" || e.port == "Open") then
        { acc with up := acc.up + 1 }
      else { acc with down := acc.down + 1 }

/-- The `POST /monitoring/stats` aggregation (lines 557-605) over the
user's monitors. -/
def monitoringStats (events : List UptimeEvent) (monitors : List Monitor) :
    MonitorStats :=
  monitors.foldl (statsStep events) { up := 0, down := 0, paused := 0 }

/-! Concrete instances used by counterexamples and witnesses. -/

/-- Web monitor used in the C1 run. -/
def c1mon : Monitor := ⟨1, some 7, "http://x", 443, "web", false, 60, 1, none, 0⟩

/-- Prior event of the C1 run (authoritative `Up`). -/
def c1last : UptimeEvent := ⟨1, some 7, 0, none, "web", none, "Up", "Unreachable", "Closed", 5, some "A"⟩

/-- Primary response of the C1 run: availability `Down`. -/
def c1resp : AgentResp := ⟨some "Down", none, none, some "500", none⟩

/-- Probe outcomes of the C1 run. -/
def c1env : ProbeEnv := ⟨some c1resp, none, none⟩

/-- Clock used by several concrete runs: the i-th wall-clock read
returns i, so successive reads are strictly increasing. -/
def idClock : Nat → Int := fun i => (i : Int)

/-- The event the C1 run appends: timestamp is clock read 2. -/
def c1cand : UptimeEvent := ⟨1, some 7, 2, none, "web", some "500", "Down", "Unreachable", "Closed", 1, some "A"⟩

/-- Web monitor of the C2 run. -/
def c2mon : Monitor := ⟨1, some 7, "http://x", 443, "web", false, 60, 1, none, 0⟩

/-- Prior event of the C2 run (authoritative `Down`). -/
def c2last : UptimeEvent := ⟨1, some 7, 0, none, "web", none, "Down", "Unreachable", "Closed", 5, some "A"⟩

/-- Agent response of the C2 run: every field absent. -/
def c2resp : AgentResp := ⟨none, none, none, none, none⟩

/-- Probe outcomes of the C2 run. -/
def c2env : ProbeEnv := ⟨some c2resp, none, none⟩

/-- The event the C2 run appends: its authoritative `availability` is
`Down`, the same as the prior event's. -/
def c2cand : UptimeEvent := ⟨1, some 7, 2, none, "web", none, "Down", "Unreachable", "Closed", 1, some "A"⟩

/-- Port monitor of the C3 run. -/
def c3mon : Monitor := ⟨2, some 7, "host", 80, "port", false, 60, 1, none, 0⟩

/-- Primary response of the C3 run: the authoritative `port` result is the
adverse `Closed`, while `availability` is `Up` and `ping` absent. -/
def c3resp : AgentResp := ⟨some "Up", none, some "Closed", none, some "refused"⟩

/-- Probe outcomes of the C3 run: a verifier answer is available and would
be returned if a verification probe were issued. -/
def c3env : ProbeEnv := ⟨some c3resp, none, some ⟨some "Up", none, none, none, none⟩⟩

/-- The candidate event of the C3 run. -/
def c3cand : UptimeEvent := ⟨2, some 7, 2, none, "port", some "refused", "Up", "Unreachable", "Closed", 1, some "A"⟩

/-- Web monitor of the C3 witness run. -/
def w3mon : Monitor := ⟨3, some 8, "http://y", 443, "web", false, 60, 1, none, 0⟩

/-- Primary response of the C3 witness run: availability `Down`. -/
def w3resp : AgentResp := ⟨some "Down", none, none, some "500", none⟩

/-- Verifier response of the C3 witness run: availability `Up`. -/
def w3verify : AgentResp := ⟨some "Up", none, none, none, none⟩

/-- Probe outcomes of the C3 witness run. -/
def w3env : ProbeEnv := ⟨some w3resp, none, some w3verify⟩

/-- Monitor of the C4 witness: `alertFrequency` 5 minutes, last alert at
time 0. -/
def w4mon : Monitor := ⟨1, some 7, "http://x", 443, "web", false, 60, 5, some 0, 0⟩

/-- Monitor of the C5 witness. -/
def w5mon : Monitor := ⟨4, some 7, "http://z", 443, "web", false, 60, 1, none, 0⟩

/-- Monitor of the C6 run: due at the tick time. -/
def c6mon : Monitor := ⟨1, some 7, "http://x", 443, "web", false, 60, 1, none, 0⟩

/-- Initial state of the C6 run: one due monitor. -/
def c6st : TickState := ⟨[c6mon], [], []⟩

/-- Probe outcomes of the C6 run, for every worker position: the primary
probe errors, the failover succeeds with availability `Down`, and the
verification probe succeeds. -/
def c6penv : Nat → ProbeEnv :=
  fun _ => ⟨none, some ⟨some "Down", none, none, none, none⟩,
    some ⟨some "Up", none, none, none, none⟩⟩

/-- Clocks of the C6 run. -/
def c6clocks : Nat → Nat → Int := fun _ _ => 0

/-- Paused monitor of the C7 witness. -/
def w7mon : Monitor := ⟨5, some 7, "http://w", 443, "web", true, 60, 1, none, 0⟩

/-- Initial state of the C7 witness. -/
def w7st : TickState := ⟨[w7mon], [], []⟩

/-- Tick environment of the C7 witness. -/
def w7env : TickEnv := ⟨["A"], fun _ => ⟨none, none, none⟩, fun _ _ => 0, 3600000⟩

/-- Event of the C9 witness: one `Up` event halfway through a one-day
window ending at 86400000. -/
def w9ev : UptimeEvent := ⟨1, some 7, 43200000, none, "web", none, "Up", "Unreachable", "Closed", 5, some "A"⟩

/-- Event of the C9 counterexample: one `Up` event exactly at the start
of the one-day window whose line-210 clock read is 86400000. -/
def c9ev : UptimeEvent := ⟨1, some 7, 0, none, "web", none, "Up", "Unreachable", "Closed", 5, some "A"⟩

/-- Candidate event of the C3 witness run: the verifier overturned
`availability` to `Up` and `confirmedByAgent` to the alternate agent. -/
def w3cand : UptimeEvent := ⟨3, some 8, 2, none, "web", some "500", "Up", "Unreachable", "Closed", 1, some "B"⟩

/-! Helper lemmas. -/

/-- Verification never changes any candidate field other than
`availability` and `confirmedByAgent`. -/
theorem applyVerification_preserves (agents : List String) (sel : String)
    (rv : Option AgentResp) (r : AgentResp) (cand : UptimeEvent) (urls : List String) :
    (applyVerification agents sel rv r cand urls).1.monitorId = cand.monitorId ∧
    (applyVerification agents sel rv r cand urls).1.timestamp = cand.timestamp ∧
    (applyVerification agents sel rv r cand urls).1.ping = cand.ping ∧
    (applyVerification agents sel rv r cand urls).1.port = cand.port ∧
    (applyVerification agents sel rv r cand urls).1.reason = cand.reason ∧
    (applyVerification agents sel rv r cand urls).1.responseTime = cand.responseTime := by
  unfold applyVerification
  split
  · split
    · split <;> exact ⟨rfl, rfl, rfl, rfl, rfl, rfl⟩
    · exact ⟨rfl, rfl, rfl, rfl, rfl, rfl⟩
  · exact ⟨rfl, rfl, rfl, rfl, rfl, rfl⟩

/-- Probe-URL trace of the verification step. -/
theorem applyVerification_snd (agents : List String) (sel : String)
    (rv : Option AgentResp) (r : AgentResp) (cand : UptimeEvent) (urls : List String) :
    (applyVerification agents sel rv r cand urls).2 =
      urls ++ (if verifyTrigger r && (agents.find? (fun u => u != sel)).isSome
        then [(agents.find? (fun u => u != sel)).getD ""] else []) := by
  unfold applyVerification
  cases ht : verifyTrigger r with
  | false => simp [ht]
  | true =>
    cases ha : agents.find? (fun u => u != sel) with
    | none => simp [ht, ha]
    | some altUrl => cases rv <;> simp [ht, ha]

/-- Behaviour of the verification step when the trigger does not fire. -/
theorem applyVerification_of_not_trigger (agents : List String) (sel : String)
    (rv : Option AgentResp) (r : AgentResp) (cand : UptimeEvent) (urls : List String)
    (ht : verifyTrigger r = false) :
    applyVerification agents sel rv r cand urls = (cand, urls) := by
  unfold applyVerification; simp [ht]

/-- Behaviour of the verification step when no alternate agent exists. -/
theorem applyVerification_of_no_alt (agents : List String) (sel : String)
    (rv : Option AgentResp) (r : AgentResp) (cand : UptimeEvent) (urls : List String)
    (ha : agents.find? (fun u => u != sel) = none) :
    applyVerification agents sel rv r cand urls = (cand, urls) := by
  unfold applyVerification; simp [ha]

/-- Behaviour of the verification step on a verifier error. -/
theorem applyVerification_of_verifier_error (agents : List String) (sel : String)
    (r : AgentResp) (cand : UptimeEvent) (urls : List String) (a : String)
    (ht : verifyTrigger r = true) (ha : agents.find? (fun u => u != sel) = some a) :
    applyVerification agents sel none r cand urls = (cand, urls ++ [a]) := by
  unfold applyVerification; simp [ht, ha]

/-- Behaviour of the verification step on a verifier success. -/
theorem applyVerification_of_verifier_ok (agents : List String) (sel : String)
    (r v : AgentResp) (cand : UptimeEvent) (urls : List String) (a : String)
    (ht : verifyTrigger r = true) (ha : agents.find? (fun u => u != sel) = some a) :
    applyVerification agents sel (some v) r cand urls =
      ({ cand with
          availability := normAvail v.availability
          confirmedByAgent := some a }, urls ++ [a]) := by
  unfold applyVerification; simp [ht, ha]

/-- The candidate produced by `afterResponse` is the verified candidate. -/
theorem afterResponse_candidate (agents : List String) (selectedUrl respUrl : String)
    (urlsSoFar : List String) (m : Monitor) (lastUptimeEvent : Option UptimeEvent)
    (resp : AgentResp) (rVerify : Option AgentResp) (clock : Nat → Int) (nextIdx : Nat) :
    (afterResponse agents selectedUrl respUrl urlsSoFar m lastUptimeEvent resp rVerify
        clock nextIdx).candidate =
      some (applyVerification agents selectedUrl rVerify resp
        (buildCandidate m (clock 2) resp (clock 1 - clock 0) (some respUrl)) urlsSoFar).1 := by
  simp only [afterResponse]
  split
  all_goals first | rfl | (split <;> rfl)

/-- The probe-URL trace produced by `afterResponse`. -/
theorem afterResponse_probeUrls (agents : List String) (selectedUrl respUrl : String)
    (urlsSoFar : List String) (m : Monitor) (lastUptimeEvent : Option UptimeEvent)
    (resp : AgentResp) (rVerify : Option AgentResp) (clock : Nat → Int) (nextIdx : Nat) :
    (afterResponse agents selectedUrl respUrl urlsSoFar m lastUptimeEvent resp rVerify
        clock nextIdx).probeUrls =
      (applyVerification agents selectedUrl rVerify resp
        (buildCandidate m (clock 2) resp (clock 1 - clock 0) (some respUrl)) urlsSoFar).2 := by
  simp only [afterResponse]
  split
  all_goals first | rfl | (split <;> rfl)

/-- The write trace produced by `afterResponse`. -/
theorem afterResponse_writes (agents : List String) (selectedUrl respUrl : String)
    (urlsSoFar : List String) (m : Monitor) (lastUptimeEvent : Option UptimeEvent)
    (resp : AgentResp) (rVerify : Option AgentResp) (clock : Nat → Int) (nextIdx : Nat) :
    (afterResponse agents selectedUrl respUrl urlsSoFar m lastUptimeEvent resp rVerify
        clock nextIdx).writes =
      if saveDecision m.type resp (lastStatusOf m.type lastUptimeEvent) then
        match lastUptimeEvent with
        | some _ =>
          [DbWrite.saveEvent (applyVerification agents selectedUrl rVerify resp
              (buildCandidate m (clock 2) resp (clock 1 - clock 0) (some respUrl)) urlsSoFar).1,
            DbWrite.setEndTime (clock 3), DbWrite.bumpUpdatedAt (clock 4)]
        | none =>
          [DbWrite.saveEvent (applyVerification agents selectedUrl rVerify resp
              (buildCandidate m (clock 2) resp (clock 1 - clock 0) (some respUrl)) urlsSoFar).1]
      else [DbWrite.bumpUpdatedAt (clock 4)] := by
  simp only [afterResponse]
  split
  all_goals first | rfl | (split <;> rfl)

/-- Positive normalization characterization: the stored value equals the
positive token iff the raw field is exactly that token. -/
theorem norm_eq_pos_iff (x : Option String) (pos neg : String) (hne : neg ≠ pos) :
    ((if x == some pos then pos else neg) = pos) ↔ x = some pos := by
  cases h : x == some pos with
  | true =>
    rw [beq_iff_eq] at h
    simp [h]
  | false =>
    rw [beq_eq_false_iff_ne] at h
    simp [h, hne]

/-- Negative normalization characterization: any raw value other than the
positive token (absent included) is stored as the adverse token. -/
theorem norm_eq_neg_of_ne (x : Option String) (pos neg : String) (h : x ≠ some pos) :
    (if x == some pos then pos else neg) = neg := by
  have hb : (x == some pos) = false := beq_eq_false_iff_ne.mpr h
  simp [hb]

/-- The save decision is exactly the raw authoritative comparison. -/
theorem saveDecision_eq_true_iff (type : String) (r : AgentResp) (last : String) :
    saveDecision type r last = true ↔ rawAuthOf type r ≠ some last := by
  unfold saveDecision rawAuthOf
  split
  · simp
  · split <;> simp

/-- A worker run that reached a response appends an event iff the save
decision fired. -/
theorem exists_saveEvent_afterResponse_iff (agents : List String)
    (sel respUrl : String) (urls : List String) (m : Monitor)
    (le : Option UptimeEvent) (r : AgentResp) (rv : Option AgentResp)
    (clock : Nat → Int) (nextIdx : Nat) :
    (∃ e, DbWrite.saveEvent e ∈
        (afterResponse agents sel respUrl urls m le r rv clock nextIdx).writes) ↔
      rawAuthOf m.type r ≠ some (lastStatusOf m.type le) := by
  rw [afterResponse_writes]
  have hiff := saveDecision_eq_true_iff m.type r (lastStatusOf m.type le)
  cases hs : saveDecision m.type r (lastStatusOf m.type le) with
  | true =>
    have hP := hiff.mp hs
    cases le <;> simp [hP]
  | false =>
    have hnP : ¬(rawAuthOf m.type r ≠ some (lastStatusOf m.type le)) := by
      intro hP
      rw [hiff.mpr hP] at hs
      exact Bool.noConfusion hs
    simp [hnP]

/-! Claim theorems. -/

/-- C1 counterexample. The claim states that on an append the previous
event's `endTime` is set to the new event's `timestamp` and that the new
event is written last. In this concrete run (web monitor, prior event
`Up`, fresh probe `Down`, strictly increasing clock) the worker appends
`c1cand` whose `timestamp` is clock read 2, writes it FIRST, and only then
sets the prior event's `endTime` to clock read 3 — a strictly later
instant, not equal to the new event's timestamp. -/
theorem C1_counterexample :
    (processMonitor ["A"] 0 [c1last] c1mon c1env idClock).writes =
      [DbWrite.saveEvent c1cand, DbWrite.setEndTime 3, DbWrite.bumpUpdatedAt 4] ∧
    c1cand.timestamp = 2 ∧ (3 : Int) ≠ 2 := by
  decide

/-- C1 (amended): when the worker appends a new uptime event and a prior
event exists, the write trace is exactly new-event save FIRST, then the
prior event's `endTime` set to wall-clock read 3 (a fresh `new Date()`
taken after the append, not the new event's timestamp, which is clock
read 2), then the `updatedAt` bump; when no prior event exists, no
`endTime` write ever occurs (the source instead throws a `TypeError`
after saving the new event). -/
theorem C1_endtime_behaviour (agents : List String) (idx : Nat)
    (events : List UptimeEvent) (m : Monitor) (env : ProbeEnv) (clock : Nat → Int) :
    (latestEventFor events m.id = none →
      ∀ t, DbWrite.setEndTime t ∉ (processMonitor agents idx events m env clock).writes) ∧
    (∀ t, DbWrite.setEndTime t ∈ (processMonitor agents idx events m env clock).writes →
      t = clock 3 ∧ ∃ e, e.timestamp = clock 2 ∧
        (processMonitor agents idx events m env clock).writes =
          [DbWrite.saveEvent e, DbWrite.setEndTime (clock 3),
            DbWrite.bumpUpdatedAt (clock 4)]) := by
  rcases env with ⟨rp, rf, rv⟩
  have hcore : ∀ (sel respUrl : String) (urls : List String) (r : AgentResp),
      (latestEventFor events m.id = none →
        ∀ t, DbWrite.setEndTime t ∉
          (afterResponse agents sel respUrl urls m (latestEventFor events m.id) r rv clock
            ((idx + 1) % agents.length)).writes) ∧
      (∀ t, DbWrite.setEndTime t ∈
          (afterResponse agents sel respUrl urls m (latestEventFor events m.id) r rv clock
            ((idx + 1) % agents.length)).writes →
        t = clock 3 ∧ ∃ e, e.timestamp = clock 2 ∧
          (afterResponse agents sel respUrl urls m (latestEventFor events m.id) r rv clock
            ((idx + 1) % agents.length)).writes =
            [DbWrite.saveEvent e, DbWrite.setEndTime (clock 3),
              DbWrite.bumpUpdatedAt (clock 4)]) := by
    intro sel respUrl urls r
    rw [afterResponse_writes]
    cases hs : saveDecision m.type r (lastStatusOf m.type (latestEventFor events m.id)) with
    | false => simp
    | true =>
      cases hle : latestEventFor events m.id with
      | none => simp
      | some le0 =>
        constructor
        · intro hcontra
          exact Option.noConfusion hcontra
        · intro t ht
          simp only [if_true, List.mem_cons, List.not_mem_nil, or_false,
            reduceCtorEq, false_or, DbWrite.setEndTime.injEq, reduceIte] at ht
          subst ht
          refine ⟨rfl, (applyVerification agents sel rv r
            (buildCandidate m (clock 2) r (clock 1 - clock 0) (some respUrl)) urls).1,
            ?_, by simp⟩
          exact (applyVerification_preserves agents sel rv r _ urls).2.1
  cases rp with
  | some r =>
    simp only [processMonitor]
    exact hcore _ _ _ r
  | none =>
    simp only [processMonitor]
    cases hfind : agents.find? (fun u => u != selectedUrlOf agents idx) with
    | none => simp
    | some alt =>
      cases rf with
      | none => simp
      | some r => exact hcore _ _ _ r

/-- C2 counterexample. The last persisted event of this web monitor is
authoritative `Down`; the fresh agent response omits `availability`
entirely, so its normalized authoritative value is again `Down` and the
spec's detector (`specShouldAppend`) says no append — yet the run appends
`c2cand`, a second consecutive event with the same authoritative value,
because the source compares the raw (null) field with the stored string. -/
theorem C2_counterexample :
    DbWrite.saveEvent c2cand ∈ (processMonitor ["A"] 0 [c2last] c2mon c2env idClock).writes ∧
    specShouldAppend c2mon.type c2resp (latestEventFor [c2last] c2mon.id) = false ∧
    c2cand.availability = c2last.availability := by
  decide

/-- C2 (amended): a run that obtained a response appends an event iff the
RAW authoritative response field (with an absent or falsy field read as
null) differs from the last persisted authoritative value, where the last
value is the sentinel Unknown when no prior event exists; when they are
equal (as raw values) nothing is written. Runs in which both probes fail
append nothing. -/
theorem C2_append_iff_raw_change (agents : List String) (idx : Nat)
    (events : List UptimeEvent) (m : Monitor) (env : ProbeEnv) (clock : Nat → Int) :
    (∃ e, DbWrite.saveEvent e ∈ (processMonitor agents idx events m env clock).writes) ↔
      ∃ r, respOf agents idx env = some r ∧
        rawAuthOf m.type r ≠ some (lastStatusOf m.type (latestEventFor events m.id)) := by
  rcases env with ⟨rp, rf, rv⟩
  cases rp with
  | some r =>
    simp only [processMonitor, respOf]
    rw [exists_saveEvent_afterResponse_iff]
    simp
  | none =>
    simp only [processMonitor, respOf, altAgentOf]
    cases hfind : agents.find? (fun u => u != selectedUrlOf agents idx) with
    | none => simp
    | some alt =>
      cases rf with
      | none => simp
      | some r =>
        rw [exists_saveEvent_afterResponse_iff]
        simp

/-- Full characterization of the candidate and probe trace produced by
`afterResponse`, used to settle the verification claim. -/
theorem afterResponse_char (agents : List String) (idx : Nat) (m : Monitor)
    (le : Option UptimeEvent) (r : AgentResp) (rv : Option AgentResp)
    (clock : Nat → Int) (nextIdx : Nat) (respUrl : String) (urls : List String)
    (c : UptimeEvent)
    (hc : (afterResponse agents (selectedUrlOf agents idx) respUrl urls m le r rv
        clock nextIdx).candidate = some c) :
    (c.monitorId = m.id ∧ c.timestamp = clock 2 ∧ c.ping = normPing r.ping ∧
      c.port = normPort r.port ∧
      c.reason = (if m.type == "web" then r.status else r.output) ∧
      c.responseTime = clock 1 - clock 0) ∧
    ((afterResponse agents (selectedUrlOf agents idx) respUrl urls m le r rv
        clock nextIdx).probeUrls =
      urls ++ (if verifyTrigger r && (altAgentOf agents idx).isSome
        then [(altAgentOf agents idx).getD ""] else [])) ∧
    (verifyTrigger r = false →
      c.availability = normAvail r.availability ∧ c.confirmedByAgent = some respUrl) ∧
    (∀ a, verifyTrigger r = true → altAgentOf agents idx = some a →
      (∀ v, rv = some v →
        c.availability = normAvail v.availability ∧ c.confirmedByAgent = some a) ∧
      (rv = none →
        c.availability = normAvail r.availability ∧ c.confirmedByAgent = some respUrl)) ∧
    (verifyTrigger r = true → altAgentOf agents idx = none →
      c.availability = normAvail r.availability ∧ c.confirmedByAgent = some respUrl) := by
  rw [afterResponse_candidate] at hc
  injection hc with hc
  subst hc
  refine ⟨?_, ?_, ?_, ?_, ?_⟩
  · exact applyVerification_preserves agents (selectedUrlOf agents idx) rv r _ urls
  · rw [afterResponse_probeUrls, applyVerification_snd]
    rfl
  · intro ht
    rw [applyVerification_of_not_trigger agents (selectedUrlOf agents idx) rv r _ urls ht]
    exact ⟨rfl, rfl⟩
  · intro a ht ha
    have ha2 : agents.find? (fun u => u != selectedUrlOf agents idx) = some a := ha
    constructor
    · intro v hv
      subst hv
      rw [applyVerification_of_verifier_ok agents (selectedUrlOf agents idx) r v _ urls a ht ha2]
      exact ⟨rfl, rfl⟩
    · intro hv
      subst hv
      rw [applyVerification_of_verifier_error agents (selectedUrlOf agents idx) r _ urls a ht ha2]
      exact ⟨rfl, rfl⟩
  · intro ht ha
    have ha2 : agents.find? (fun u => u != selectedUrlOf agents idx) = none := ha
    rw [applyVerification_of_no_alt agents (selectedUrlOf agents idx) rv r _ urls ha2]
    exact ⟨rfl, rfl⟩

/-- C3 counterexample. This port monitor's probe returns the adverse
authoritative result (`port` raw field `Closed`); an alternate agent `B`
exists and a verifier answer is available (`c3env.rVerify.isSome`), yet
the run issues exactly one probe (to the primary `A` only — no
verification probe) and the candidate stands unverified with
`confirmedByAgent` still the primary: the source's trigger checks only
raw `availability`/`ping`, and its `port === "Closed"` compares the
monitor's numeric port, which is never the string `Closed`. -/
theorem C3_counterexample :
    (processMonitor ["A", "B"] 0 [] c3mon c3env idClock).probeUrls = ["A"] ∧
    (processMonitor ["A", "B"] 0 [] c3mon c3env idClock).candidate = some c3cand ∧
    c3cand.port = "Closed" ∧ c3cand.availability = "Up" ∧
    c3cand.confirmedByAgent = some "A" ∧ c3env.rVerify.isSome = true := by
  decide

/-- C3 (amended): for a run that obtained a response `r`, a verification
probe is issued iff the RAW response `availability` is `Down` or the raw
`ping` is `Unreachable` (`verifyTrigger`; an adverse `port` result never
triggers it) and an agent with a URL different from the PRIMARY selected
URL exists (not necessarily different from `confirmedByAgent`: after a
failover it is the same agent that answered); the verification probe goes
to that agent; on verifier success strictly `availability` (normalized)
and `confirmedByAgent` are overwritten while ping, port, reason,
responseTime and timestamp retain the accepted probe's values; a verifier
error leaves the candidate unchanged. -/
theorem C3_verification_amended (agents : List String) (idx : Nat)
    (events : List UptimeEvent) (m : Monitor) (env : ProbeEnv) (clock : Nat → Int)
    (r : AgentResp) (hr : respOf agents idx env = some r) (c : UptimeEvent)
    (hc : (processMonitor agents idx events m env clock).candidate = some c) :
    (c.monitorId = m.id ∧ c.timestamp = clock 2 ∧ c.ping = normPing r.ping ∧
      c.port = normPort r.port ∧
      c.reason = (if m.type == "web" then r.status else r.output) ∧
      c.responseTime = clock 1 - clock 0) ∧
    ((processMonitor agents idx events m env clock).probeUrls =
      (if env.rPrimary.isSome then [selectedUrlOf agents idx]
        else [selectedUrlOf agents idx, (altAgentOf agents idx).getD ""]) ++
      (if verifyTrigger r && (altAgentOf agents idx).isSome
        then [(altAgentOf agents idx).getD ""] else [])) ∧
    (verifyTrigger r = false →
      c.availability = normAvail r.availability ∧
      c.confirmedByAgent = some (respUrlOf agents idx env)) ∧
    (∀ a, verifyTrigger r = true → altAgentOf agents idx = some a →
      (∀ v, env.rVerify = some v →
        c.availability = normAvail v.availability ∧ c.confirmedByAgent = some a) ∧
      (env.rVerify = none →
        c.availability = normAvail r.availability ∧
        c.confirmedByAgent = some (respUrlOf agents idx env))) ∧
    (verifyTrigger r = true → altAgentOf agents idx = none →
      c.availability = normAvail r.availability ∧
      c.confirmedByAgent = some (respUrlOf agents idx env)) := by
  rcases env with ⟨rp, rf, rv⟩
  cases rp with
  | some r0 =>
    simp only [respOf] at hr
    have hr2 : r = r0 := by
      injection hr with h
      exact h.symm
    subst hr2
    simp only [processMonitor] at hc ⊢
    have H := afterResponse_char agents idx m (latestEventFor events m.id) r rv clock
      ((idx + 1) % agents.length) (selectedUrlOf agents idx) [selectedUrlOf agents idx] c hc
    refine ⟨H.1, ?_, H.2.2.1, H.2.2.2.1, H.2.2.2.2⟩
    simpa using H.2.1
  | none =>
    cases hfind : agents.find? (fun u => u != selectedUrlOf agents idx) with
    | none =>
      exfalso
      simp only [respOf, altAgentOf, hfind] at hr
      exact Option.noConfusion hr
    | some alt =>
      cases rf with
      | none =>
        exfalso
        simp only [respOf, altAgentOf, hfind] at hr
        exact Option.noConfusion hr
      | some r0 =>
        have hr0 : r = r0 := by
          simp only [respOf, altAgentOf, hfind] at hr
          injection hr with h
          exact h.symm
        subst hr0
        simp only [processMonitor, hfind] at hc ⊢
        have H := afterResponse_char agents idx m (latestEventFor events m.id) r rv clock
          ((idx + 1) % agents.length) alt [selectedUrlOf agents idx, alt] c hc
        have hru : respUrlOf agents idx ⟨none, some r, rv⟩ = alt := by
          simp [respUrlOf, altAgentOf, hfind]
        refine ⟨H.1, ?_, ?_, ?_, ?_⟩
        · simpa [altAgentOf, hfind] using H.2.1
        · intro ht
          rw [hru]
          exact H.2.2.1 ht
        · intro a ht ha
          rw [hru]
          exact H.2.2.2.1 a ht ha
        · intro ht ha
          rw [hru]
          exact H.2.2.2.2 ht ha

/-- Witness for the amended C3 theorem: a web monitor whose primary
response is `Down` (trigger fires), with verifier overturning to `Up`. -/
theorem C3_verification_amended_witness :
    respOf ["A", "B"] 0 w3env = some w3resp ∧
    (processMonitor ["A", "B"] 0 [] w3mon w3env idClock).candidate = some w3cand ∧
    (w3cand.monitorId = w3mon.id ∧ w3cand.timestamp = idClock 2 ∧
      w3cand.ping = normPing w3resp.ping ∧ w3cand.port = normPort w3resp.port ∧
      w3cand.reason = (if w3mon.type == "web" then w3resp.status else w3resp.output) ∧
      w3cand.responseTime = idClock 1 - idClock 0) :=
  ⟨by decide, by decide,
    (C3_verification_amended ["A", "B"] 0 [] w3mon w3env idClock w3resp (by decide)
      w3cand (by decide)).1⟩

/-- C8: the probe result stored in the candidate event is normalized
pointwise: `availability` is `Up` iff the agent reported exactly the
string `Up` (else `Down`), `ping` is `Reachable` iff exactly `Reachable`
(else `Unreachable`), `port` is `Open` iff exactly `Open` (else `Closed`);
an absent raw field (`none`) therefore yields the adverse default. -/
theorem C8_pointwise_normalization (m : Monitor) (ts rt : Int) (r : AgentResp)
    (cb : Option String) :
    ((buildCandidate m ts r rt cb).availability = "Up" ↔ r.availability = some "Up") ∧
    (r.availability ≠ some "Up" → (buildCandidate m ts r rt cb).availability = "Down") ∧
    ((buildCandidate m ts r rt cb).ping = "Reachable" ↔ r.ping = some "Reachable") ∧
    (r.ping ≠ some "Reachable" → (buildCandidate m ts r rt cb).ping = "Unreachable") ∧
    ((buildCandidate m ts r rt cb).port = "Open" ↔ r.port = some "Open") ∧
    (r.port ≠ some "Open" → (buildCandidate m ts r rt cb).port = "Closed") := by
  refine ⟨?_, ?_, ?_, ?_, ?_, ?_⟩
  · exact norm_eq_pos_iff r.availability "Up" "Down" (by decide)
  · exact fun h => norm_eq_neg_of_ne r.availability "Up" "Down" h
  · exact norm_eq_pos_iff r.ping "Reachable" "Unreachable" (by decide)
  · exact fun h => norm_eq_neg_of_ne r.ping "Reachable" "Unreachable" h
  · exact norm_eq_pos_iff r.port "Open" "Closed" (by decide)
  · exact fun h => norm_eq_neg_of_ne r.port "Open" "Closed" h

/-- Each stats-loop iteration increments exactly one of the three
counters. -/
theorem statsStep_sum (events : List UptimeEvent) (acc : MonitorStats) (monitor : Monitor) :
    (statsStep events acc monitor).up + (statsStep events acc monitor).down +
      (statsStep events acc monitor).paused = acc.up + acc.down + acc.paused + 1 := by
  unfold statsStep
  split
  · show acc.up + acc.down + (acc.paused + 1) = acc.up + acc.down + acc.paused + 1
    omega
  · split
    · show acc.up + (acc.down + 1) + acc.paused = acc.up + acc.down + acc.paused + 1
      omega
    · split
      · show acc.up + 1 + acc.down + acc.paused = acc.up + acc.down + acc.paused + 1
        omega
      · show acc.up + (acc.down + 1) + acc.paused = acc.up + acc.down + acc.paused + 1
        omega

/-- Folding the stats loop over a monitor list adds the list length to any
accumulator's counter total. -/
theorem monitoringStats_aux (events : List UptimeEvent) :
    ∀ (l : List Monitor) (acc : MonitorStats),
      (l.foldl (statsStep events) acc).up + (l.foldl (statsStep events) acc).down +
        (l.foldl (statsStep events) acc).paused =
        acc.up + acc.down + acc.paused + l.length
  | [], acc => by simp
  | m :: rest, acc => by
    simp only [List.foldl_cons, List.length_cons]
    rw [monitoringStats_aux events rest (statsStep events acc m), statsStep_sum]
    omega

/-- C10: the monitoring-stats endpoint classifies every monitor of the
user into exactly one of Up, Down or Paused, so the returned counts always
partition the total: `totalMonitors = upMonitors + downMonitors +
pausedMonitors`. -/
theorem C10_stats_partition (events : List UptimeEvent) (monitors : List Monitor) :
    monitors.length = (monitoringStats events monitors).up +
      (monitoringStats events monitors).down + (monitoringStats events monitors).paused := by
  unfold monitoringStats
  rw [monitoringStats_aux]
  simp

/-- C4: for a monitor found in the database with a schema-valid (nonzero)
`alertFrequency`, `sendAlert` inserts an alert iff `lastAlertSentAt` is
null or at least `alertFrequency` minutes have elapsed; when it inserts,
the alert carries exactly `(userId, monitorId, url)` and the monitor is
persisted with `lastAlertSentAt := now`; with no owning user nothing is
inserted and nothing is updated. -/
theorem C4_alert_throttle (uid : Nat) (url : String) (id : Nat) (m : Monitor)
    (now : Int) (haf : m.alertFrequency ≠ 0) :
    ((sendAlert (some uid) url id (some m) now).1.isSome ↔
      (m.lastAlertSentAt = none ∨ ∃ t, m.lastAlertSentAt = some t ∧
        (m.alertFrequency : Int) * 60 * 1000 ≤ now - t)) ∧
    (∀ a, (sendAlert (some uid) url id (some m) now).1 = some a →
      a = ⟨uid, id, url⟩ ∧ (sendAlert (some uid) url id (some m) now).2 =
        some { m with lastAlertSentAt := some now }) ∧
    sendAlert none url id (some m) now = (none, none) := by
  have hb : (m.alertFrequency == 0) = false := by simpa using haf
  refine ⟨?_, ?_, rfl⟩
  · cases hla : m.lastAlertSentAt with
    | none => simp [sendAlert, hla, hb]
    | some t =>
      by_cases hle : (m.alertFrequency : Int) * 60 * 1000 ≤ now - t <;>
        simp [sendAlert, hla, hb, hle]
  · intro a ha
    cases hla : m.lastAlertSentAt with
    | none =>
      simp [sendAlert, hla, hb] at ha ⊢
      exact ha.symm
    | some t =>
      by_cases hle : (m.alertFrequency : Int) * 60 * 1000 ≤ now - t <;>
        simp [sendAlert, hla, hb, hle] at ha ⊢
      exact ha.symm

/-- Witness for C4: alert frequency 5 minutes, last alert at time 0,
invoked at time 300000 (exactly 5 minutes later). -/
theorem C4_alert_throttle_witness :
    w4mon.alertFrequency ≠ 0 ∧
    ((sendAlert (some 7) "http://x" 1 (some w4mon) 300000).1.isSome ↔
      (w4mon.lastAlertSentAt = none ∨ ∃ t, w4mon.lastAlertSentAt = some t ∧
        (w4mon.alertFrequency : Int) * 60 * 1000 ≤ 300000 - t)) :=
  ⟨by decide, (C4_alert_throttle 7 "http://x" 1 w4mon 300000 (by decide)).1⟩

/-- C5: if the primary probe errors and the failover also errors (or no
agent with a different URL exists), the monitor is skipped for this tick
with state unchanged: no uptime event written (empty write trace, so in
particular no `updatedAt` bump), no candidate, no alert call, the
database state is fixed by the run, and a monitor due at time `t` is
still due at any later time `u` (so it is selected again next tick). -/
theorem C5_double_failure_skips (agents : List String) (idx : Nat)
    (events : List UptimeEvent) (m : Monitor) (fo rv : Option AgentResp)
    (clock : Nat → Int)
    (h : altAgentOf agents idx = none ∨ fo = none) :
    (processMonitor agents idx events m ⟨none, fo, rv⟩ clock).writes = [] ∧
    (processMonitor agents idx events m ⟨none, fo, rv⟩ clock).candidate = none ∧
    (processMonitor agents idx events m ⟨none, fo, rv⟩ clock).alertCall = none ∧
    (∀ st n, applyStep st m (processMonitor agents idx events m ⟨none, fo, rv⟩ clock) n = st) ∧
    (∀ t u, t ≤ u → dueFilter t m = true → dueFilter u m = true) := by
  have hskip : (processMonitor agents idx events m ⟨none, fo, rv⟩ clock).writes = [] ∧
      (processMonitor agents idx events m ⟨none, fo, rv⟩ clock).candidate = none ∧
      (processMonitor agents idx events m ⟨none, fo, rv⟩ clock).alertCall = none := by
    cases hfind : agents.find? (fun u => u != selectedUrlOf agents idx) with
    | none =>
      simp [processMonitor, hfind]
    | some alt =>
      rcases h with h | h
      · exfalso
        have h2 : agents.find? (fun u => u != selectedUrlOf agents idx) = none := h
        rw [hfind] at h2
        exact Option.noConfusion h2
      · subst h
        simp [processMonitor, hfind]
  refine ⟨hskip.1, hskip.2.1, hskip.2.2, ?_, ?_⟩
  · intro st n
    simp [applyStep, applyAlert, hskip.1, hskip.2.2]
  · intro t u htu hdue
    simp only [dueFilter, Bool.and_eq_true, decide_eq_true_eq] at hdue ⊢
    exact ⟨⟨hdue.1.1, by omega⟩, hdue.2⟩

/-- Witness for C5: a single registered agent (no alternate exists) and a
primary probe error. -/
theorem C5_double_failure_skips_witness :
    (altAgentOf ["A"] 0 = none ∨ (none : Option AgentResp) = none) ∧
    (processMonitor ["A"] 0 [] w5mon ⟨none, none, none⟩ idClock).writes = [] :=
  ⟨Or.inl (by decide),
    (C5_double_failure_skips ["A"] 0 [] w5mon none none idClock (Or.inl (by decide))).1⟩

/-- One worker run issues at most three probe requests: the primary, at
most one failover, and at most one verification probe. -/
theorem processMonitor_probes_le (agents : List String) (idx : Nat)
    (events : List UptimeEvent) (m : Monitor) (env : ProbeEnv) (clock : Nat → Int) :
    (processMonitor agents idx events m env clock).probeUrls.length ≤ 3 := by
  rcases env with ⟨rp, rf, rv⟩
  have hafter : ∀ (sel respUrl : String) (urls : List String) (r : AgentResp)
      (nextIdx : Nat), urls.length ≤ 2 →
      (afterResponse agents sel respUrl urls m (latestEventFor events m.id) r rv clock
        nextIdx).probeUrls.length ≤ 3 := by
    intro sel respUrl urls r nextIdx hu
    rw [afterResponse_probeUrls, applyVerification_snd]
    split
    · simp only [List.length_append, List.length_singleton]
      omega
    · simp only [List.append_nil]
      omega
  cases rp with
  | some r =>
    simp only [processMonitor]
    exact hafter _ _ _ r _ (by simp)
  | none =>
    cases hfind : agents.find? (fun u => u != selectedUrlOf agents idx) with
    | none => simp [processMonitor, hfind]
    | some alt =>
      cases rf with
      | none => simp [processMonitor, hfind]
      | some r =>
        simp only [processMonitor, hfind]
        exact hafter _ _ _ r _ (by simp)

/-- Probe-count bound for the sequential due-list fold. -/
theorem runDue_probes_le (agents : List String) (penv : Nat → ProbeEnv)
    (clocks : Nat → Nat → Int) :
    ∀ (due : List Monitor) (i idx : Nat) (st : TickState) (acc : Nat),
      (runDue agents penv clocks due i idx st acc).2.2 ≤ acc + 3 * due.length
  | [], _, _, _, _ => by simp [runDue]
  | m :: rest, i, idx, st, acc => by
    have h2 := processMonitor_probes_le agents idx st.events m (penv i) (clocks i)
    have h1 := runDue_probes_le agents penv clocks rest (i + 1)
      (processMonitor agents idx st.events m (penv i) (clocks i)).nextUrlIndex
      (applyStep st m (processMonitor agents idx st.events m (penv i) (clocks i)) (clocks i 5))
      (acc + (processMonitor agents idx st.events m (penv i) (clocks i)).probeUrls.length)
    simp only [runDue, List.length_cons]
    omega

/-- C6 counterexample. One due monitor, two agents: the primary probe
errors, the failover answers `Down`, and the adverse answer triggers a
verification probe — three probe requests in a tick with one due monitor,
exceeding the claimed bound of two per due monitor. -/
theorem C6_counterexample :
    (performTick ["A", "B"] c6penv c6clocks 3600000 c6st 0).2.2 = 3 ∧
    (c6st.monitors.filter (dueFilter 3600000)).length = 1 ∧
    ¬((performTick ["A", "B"] c6penv c6clocks 3600000 c6st 0).2.2 ≤
        2 * (c6st.monitors.filter (dueFilter 3600000)).length) := by
  decide

/-- C6 (amended): over any single bucket tick, the total number of probe
requests issued is at most 3 times the number of due monitors processed
in that tick: one primary probe, at most one failover probe after a
primary error, and at most one verification probe — and the failover and
verification probes can both occur for the same monitor. -/
theorem C6_probe_bound_amended (agents : List String) (penv : Nat → ProbeEnv)
    (clocks : Nat → Nat → Int) (now : Int) (st : TickState) (idx : Nat) :
    (performTick agents penv clocks now st idx).2.2 ≤
      3 * (st.monitors.filter (dueFilter now)).length := by
  unfold performTick
  split
  · simp
  · have := runDue_probes_le agents penv clocks (st.monitors.filter (dueFilter now)) 0 idx st 0
    omega

/-- Bounds for the interval-summing loop of the uptime aggregator: over a
time-sorted event list whose timestamps are at least the cursor `c`, the
accumulated up-time is nonnegative and at most the span from `c` to the
last timestamp. -/
theorem sumUpTime_bounds :
    ∀ (l : List UptimeEvent) (c : Int),
      (∀ e ∈ l, c ≤ e.timestamp) →
      l.Pairwise (fun a b => a.timestamp ≤ b.timestamp) →
      0 ≤ sumUpTime c l ∧ sumUpTime c l ≤ lastTs c l - c
  | [], c, _, _ => by simp [sumUpTime, lastTs]
  | e :: es, c, hmem, hpair => by
    have hce : c ≤ e.timestamp := hmem e (List.mem_cons_self e es)
    have hp := List.pairwise_cons.mp hpair
    have IH := sumUpTime_bounds es e.timestamp hp.1 hp.2
    have hlast : lastTs c (e :: es) = lastTs e.timestamp es := by
      cases es with
      | nil => simp [lastTs]
      | cons e2 es2 =>
        simp only [lastTs, List.getLast?_cons_cons]
        cases hgl : (e2 :: es2).getLast? with
        | none => simp at hgl
        | some x => rfl
    have I1 := IH.1
    have I2 := IH.2
    refine ⟨?_, ?_⟩
    · simp only [sumUpTime]
      cases h : isUpEvent e <;> simp [h] <;> omega
    · rw [hlast]
      simp only [sumUpTime]
      cases h : isUpEvent e <;> simp [h] <;> omega

/-- C9 counterexample. The aggregator reads the wall clock twice and
applies no clamp: here the line-238 read (`now1` = 86940000) is nine
minutes after the line-210 read (`now0` = 86400000), and the only window
event is `Up`, so the final interval extends past the end of the one-day
window and the computed percentage is 805/8 = 100.625 — strictly above
100 (and still above 100 after the source applies `toFixed(0)`, which
rounds it to "101") — refuting the claim that the result is always in
`[0, 100]`. -/
theorem C9_counterexample :
    calculateAverageUptime 1 86400000 86940000 1 [c9ev] = 805 / 8 ∧
    100 < calculateAverageUptime 1 86400000 86940000 1 [c9ev] := by
  have h : calculateAverageUptime 1 86400000 86940000 1 [c9ev] = 805 / 8 := by
    simp [calculateAverageUptime, c9ev, sumUpTime, isUpEvent]
    norm_num
  refine ⟨h, ?_⟩
  rw [h]
  norm_num

/-- C9 (amended): for a positive duration `D` in days, monotone wall-clock
reads (`now0` at line 210, `now1` at line 238), and a time-ordered event
log with no timestamps after `now1`: the rolling uptime percentage
computed by the aggregator is nonnegative and at most
`100 * (now1 - now0 + D*86400000) / (D*86400000)` — it can exceed 100 by
exactly the clock advance between the two reads, because the source
applies no clamp; it is at most 100 whenever the two reads coincide; and
when no events of the monitor fall in the window it is exactly 100. -/
theorem C9_uptime_bounds (D : Nat) (now0 now1 : Int) (id : Nat)
    (events : List UptimeEvent) (hD : 0 < D) (hmono : now0 ≤ now1)
    (hsorted : events.Pairwise (fun a b => a.timestamp ≤ b.timestamp))
    (hpast : ∀ e ∈ events, e.timestamp ≤ now1) :
    0 ≤ calculateAverageUptime D now0 now1 id events ∧
    calculateAverageUptime D now0 now1 id events ≤
      (((now1 - now0 + (D : Int) * 86400000 : Int) : ℚ) /
        (((D : Int) * 86400000 : Int) : ℚ)) * 100 ∧
    (now1 = now0 → calculateAverageUptime D now0 now1 id events ≤ 100) ∧
    (events.filter (fun e => e.monitorId == id &&
        decide (now0 - (D : Int) * 86400000 ≤ e.timestamp)) = [] →
      calculateAverageUptime D now0 now1 id events = 100) := by
  have hdpos : (0 : Int) < (D : Int) * 86400000 := by
    have hd0 : (0 : Int) < (D : Int) := by exact_mod_cast hD
    positivity
  have hdQ : (0 : ℚ) < (((D : Int) * 86400000 : Int) : ℚ) := by exact_mod_cast hdpos
  have hBge : (((D : Int) * 86400000 : Int) : ℚ) ≤
      ((now1 - now0 + (D : Int) * 86400000 : Int) : ℚ) := by
    exact_mod_cast (by omega : (D : Int) * 86400000 ≤ now1 - now0 + (D : Int) * 86400000)
  have hb100 : (100 : ℚ) ≤ (((now1 - now0 + (D : Int) * 86400000 : Int) : ℚ) /
      (((D : Int) * 86400000 : Int) : ℚ)) * 100 := by
    have h1 : (1 : ℚ) ≤ ((now1 - now0 + (D : Int) * 86400000 : Int) : ℚ) /
        (((D : Int) * 86400000 : Int) : ℚ) := (one_le_div hdQ).mpr hBge
    calc (100 : ℚ) = 1 * 100 := by norm_num
      _ ≤ _ := mul_le_mul_of_nonneg_right h1 (by norm_num)
  simp only [calculateAverageUptime]
  set l := events.filter (fun e => e.monitorId == id &&
    decide (now0 - (D : Int) * 86400000 ≤ e.timestamp)) with hleq
  by_cases hemp : l.isEmpty
  · simp only [hemp, reduceIte]
    exact ⟨by norm_num, hb100, fun _ => by norm_num, fun _ => trivial⟩
  · have hlne : l ≠ [] := by
      intro h0
      exact hemp (by rw [h0]; rfl)
    have hempf : l.isEmpty = false := by simpa using hemp
    simp only [hempf, Bool.false_eq_true, if_false]
    have hmeml : ∀ e ∈ l, now0 - (D : Int) * 86400000 ≤ e.timestamp := by
      intro e he
      rw [hleq] at he
      have hp := List.of_mem_filter he
      simp only [Bool.and_eq_true, decide_eq_true_eq] at hp
      exact hp.2
    have hsortl : l.Pairwise (fun a b => a.timestamp ≤ b.timestamp) := by
      rw [hleq]
      exact hsorted.filter _
    have hpastl : ∀ e ∈ l, e.timestamp ≤ now1 := by
      intro e he
      rw [hleq] at he
      exact hpast e (List.mem_of_mem_filter he)
    have hbounds := sumUpTime_bounds l (now0 - (D : Int) * 86400000) hmeml hsortl
    cases hgl : l.getLast? with
    | none =>
      exact absurd (List.getLast?_eq_none_iff.mp hgl) hlne
    | some elast =>
      have hel : elast ∈ l := List.mem_of_mem_getLast? hgl
      have helast_now : elast.timestamp ≤ now1 := hpastl elast hel
      have hlastts : lastTs (now0 - (D : Int) * 86400000) l = elast.timestamp := by
        simp [lastTs, hgl]
      have h0S := hbounds.1
      have hS := hbounds.2
      rw [hlastts] at hS
      dsimp only
      have htotpos : 0 ≤ sumUpTime (now0 - (D : Int) * 86400000) l +
          (if isUpEvent elast then now1 - elast.timestamp else 0) := by
        split <;> omega
      have htotle : sumUpTime (now0 - (D : Int) * 86400000) l +
          (if isUpEvent elast then now1 - elast.timestamp else 0) ≤
          now1 - now0 + (D : Int) * 86400000 := by
        split <;> omega
      refine ⟨?_, ?_, ?_, fun h0 => absurd h0 hlne⟩
      · apply mul_nonneg _ (by norm_num : (0 : ℚ) ≤ 100)
        apply div_nonneg _ hdQ.le
        exact_mod_cast htotpos
      · have h1 : ((sumUpTime (now0 - (D : Int) * 86400000) l +
            (if isUpEvent elast then now1 - elast.timestamp else 0) : Int) : ℚ) /
              (((D : Int) * 86400000 : Int) : ℚ) ≤
            ((now1 - now0 + (D : Int) * 86400000 : Int) : ℚ) /
              (((D : Int) * 86400000 : Int) : ℚ) := by
          rw [div_le_div_iff_of_pos_right hdQ]
          exact_mod_cast htotle
        exact mul_le_mul_of_nonneg_right h1 (by norm_num)
      · intro hnow
        have htotle2 : sumUpTime (now0 - (D : Int) * 86400000) l +
            (if isUpEvent elast then now1 - elast.timestamp else 0) ≤
            (D : Int) * 86400000 := by omega
        have h1 : ((sumUpTime (now0 - (D : Int) * 86400000) l +
            (if isUpEvent elast then now1 - elast.timestamp else 0) : Int) : ℚ) /
              (((D : Int) * 86400000 : Int) : ℚ) ≤ 1 := by
          rw [div_le_one hdQ]
          exact_mod_cast htotle2
        have h2 := mul_le_mul_of_nonneg_right h1 (by norm_num : (0 : ℚ) ≤ 100)
        simpa using h2

/-- Witness for the amended C9 theorem: coincident clock reads at
86400000 and a single `Up` event at the window midpoint. -/
theorem C9_uptime_bounds_witness :
    0 < 1 ∧ (86400000 : Int) ≤ 86400000 ∧
    0 ≤ calculateAverageUptime 1 86400000 86400000 1 [w9ev] ∧
    calculateAverageUptime 1 86400000 86400000 1 [w9ev] ≤ 100 :=
  ⟨by decide, by decide,
    (C9_uptime_bounds 1 86400000 86400000 1 [w9ev] (by decide) (by decide) (by simp)
      (by decide)).1,
    (C9_uptime_bounds 1 86400000 86400000 1 [w9ev] (by decide) (by decide) (by simp)
      (by decide)).2.2.1 rfl⟩

/-- The event fetched as `lastUptimeEvent` belongs to the queried
monitor. -/
theorem latestEventFor_monitorId (events : List UptimeEvent) (mid : Nat)
    (e : UptimeEvent) (h : latestEventFor events mid = some e) : e.monitorId = mid := by
  have aux : ∀ (l : List UptimeEvent), (∀ x ∈ l, x.monitorId = mid) →
      ∀ (acc : Option UptimeEvent), (∀ b, acc = some b → b.monitorId = mid) →
      ∀ e2, l.foldl (fun acc e =>
        match acc with
        | none => some e
        | some b => if b.timestamp < e.timestamp then some e else some b) acc = some e2 →
      e2.monitorId = mid := by
    intro l
    induction l with
    | nil =>
      intro _ acc hacc e2 he
      exact hacc e2 he
    | cons x xs ih =>
      intro hl acc hacc e2 he
      simp only [List.foldl_cons] at he
      apply ih (fun y hy => hl y (List.mem_cons_of_mem _ hy)) _ _ e2 he
      intro b hb
      cases acc with
      | none =>
        injection hb with hb
        exact hb ▸ hl x (List.mem_cons_self x xs)
      | some b0 =>
        dsimp only at hb
        split at hb
        · injection hb with hb
          exact hb ▸ hl x (List.mem_cons_self x xs)
        · injection hb with hb
          exact hb ▸ hacc b0 rfl
  unfold latestEventFor at h
  apply aux (events.filter (fun e => e.monitorId == mid)) ?_ none ?_ e h
  · intro x hx
    have hx2 := List.of_mem_filter hx
    simpa using hx2
  · intro b hb
    exact Option.noConfusion hb

/-- The alert-call arguments of `afterResponse`. -/
theorem afterResponse_alertCall (agents : List String) (selectedUrl respUrl : String)
    (urlsSoFar : List String) (m : Monitor) (lastUptimeEvent : Option UptimeEvent)
    (resp : AgentResp) (rVerify : Option AgentResp) (clock : Nat → Int) (nextIdx : Nat) :
    (afterResponse agents selectedUrl respUrl urlsSoFar m lastUptimeEvent resp rVerify
        clock nextIdx).alertCall =
      alertDecision m (applyVerification agents selectedUrl rVerify resp
        (buildCandidate m (clock 2) resp (clock 1 - clock 0) (some respUrl)) urlsSoFar).1 := by
  simp only [afterResponse]
  split
  all_goals first | rfl | (split <;> rfl)

/-- A fired alert decision always carries the processed monitor's id. -/
theorem alertDecision_id (m : Monitor) (cand : UptimeEvent) (u : Option Nat)
    (url : String) (i : Nat) (h : alertDecision m cand = some (u, url, i)) : i = m.id := by
  unfold alertDecision at h
  split at h
  · simp only [Option.some.injEq, Prod.mk.injEq] at h
    exact h.2.2.symm
  · split at h
    · simp only [Option.some.injEq, Prod.mk.injEq] at h
      exact h.2.2.symm
    · split at h
      · simp only [Option.some.injEq, Prod.mk.injEq] at h
        exact h.2.2.symm
      · exact Option.noConfusion h

/-- Every event saved by a worker run carries the processed monitor's id,
and so does any alert call the run issues. -/
theorem processMonitor_write_ids (agents : List String) (idx : Nat)
    (events : List UptimeEvent) (m : Monitor) (env : ProbeEnv) (clock : Nat → Int) :
    (∀ e, DbWrite.saveEvent e ∈ (processMonitor agents idx events m env clock).writes →
      e.monitorId = m.id) ∧
    (∀ u url i, (processMonitor agents idx events m env clock).alertCall =
        some (u, url, i) → i = m.id) := by
  rcases env with ⟨rp, rf, rv⟩
  have hafter : ∀ (sel respUrl : String) (urls : List String) (r : AgentResp)
      (nextIdx : Nat),
      (∀ e, DbWrite.saveEvent e ∈ (afterResponse agents sel respUrl urls m
          (latestEventFor events m.id) r rv clock nextIdx).writes → e.monitorId = m.id) ∧
      (∀ u url i, (afterResponse agents sel respUrl urls m
          (latestEventFor events m.id) r rv clock nextIdx).alertCall = some (u, url, i) →
        i = m.id) := by
    intro sel respUrl urls r nextIdx
    have hmid : (applyVerification agents sel rv r
        (buildCandidate m (clock 2) r (clock 1 - clock 0) (some respUrl)) urls).1.monitorId =
        m.id :=
      (applyVerification_preserves agents sel rv r _ urls).1
    constructor
    · intro e he
      rw [afterResponse_writes] at he
      split at he
      · split at he
        · simp only [List.mem_cons, List.not_mem_nil, or_false, reduceCtorEq, false_or,
            DbWrite.saveEvent.injEq] at he
          rw [he]
          exact hmid
        · simp only [List.mem_cons, List.not_mem_nil, or_false,
            DbWrite.saveEvent.injEq] at he
          rw [he]
          exact hmid
      · simp at he
    · intro u url i hi
      rw [afterResponse_alertCall] at hi
      exact alertDecision_id m _ u url i hi
  cases rp with
  | some r =>
    simp only [processMonitor]
    exact hafter _ _ _ r _
  | none =>
    cases hfind : agents.find? (fun u => u != selectedUrlOf agents idx) with
    | none =>
      simp [processMonitor, hfind]
    | some alt =>
      cases rf with
      | none => simp [processMonitor, hfind]
      | some r =>
        simp only [processMonitor, hfind]
        exact hafter _ _ _ r _

/-- Setting `endTime` on a document of another monitor does not change the
filtered view of a given monitor's events. -/
theorem filter_map_setEnd (mid : Nat) (t : Int) (le : UptimeEvent)
    (hlm : le.monitorId ≠ mid) :
    ∀ (l : List UptimeEvent),
      (l.map (fun x => if x == le then { x with endTime := some t } else x)).filter
          (fun e => e.monitorId == mid) =
        l.filter (fun e => e.monitorId == mid)
  | [] => rfl
  | x :: xs => by
    have ih := filter_map_setEnd mid t le hlm xs
    simp only [List.map_cons, List.filter_cons]
    by_cases hx : (x == le) = true
    · have hxe : x = le := by simpa using hx
      have hb1 : (({ x with endTime := some t } : UptimeEvent).monitorId == mid) = false := by
        have h2 : ({ x with endTime := some t } : UptimeEvent).monitorId = le.monitorId := by
          rw [hxe]
        rw [h2]
        exact beq_eq_false_iff_ne.mpr hlm
      have hb2 : (x.monitorId == mid) = false := by
        rw [hxe]
        exact beq_eq_false_iff_ne.mpr hlm
      simp only [hx, reduceIte, hb1, hb2, Bool.false_eq_true, if_false]
      exact ih
    · have hxf : (x == le) = false := by simpa using hx
      simp only [hxf, Bool.false_eq_true, if_false]
      rw [ih]

/-- Updating `updatedAt` by id preserves every monitor's id and paused
flag. -/
theorem map_idPaused_update (mId : Nat) (t : Int) :
    ∀ (l : List Monitor),
      ((l.map (fun x => if x.id == mId then { x with updatedAt := t } else x)).map
          (fun x => (x.id, x.isPaused))) =
        l.map (fun x => (x.id, x.isPaused))
  | [] => rfl
  | x :: xs => by
    have ih := map_idPaused_update mId t xs
    simp only [List.map_cons, ih]
    by_cases hx : (x.id == mId) = true <;> simp [hx]

/-- Updating `lastAlertSentAt` by id preserves every monitor's id and
paused flag. -/
theorem map_idPaused_alert_update (id2 : Nat) (v : Option Int) :
    ∀ (l : List Monitor),
      ((l.map (fun x => if x.id == id2 then { x with lastAlertSentAt := v } else x)).map
          (fun x => (x.id, x.isPaused))) =
        l.map (fun x => (x.id, x.isPaused))
  | [] => rfl
  | x :: xs => by
    have ih := map_idPaused_alert_update id2 v xs
    simp only [List.map_cons, ih]
    by_cases hx : (x.id == id2) = true <;> simp [hx]

/-- An alert inserted by `sendAlert` carries the id it was called with. -/
theorem sendAlert_alert_monitorId (userId : Option Nat) (url : String) (id : Nat)
    (monitorInDb : Option Monitor) (now : Int) (a : AlertRec)
    (h : (sendAlert userId url id monitorInDb now).1 = some a) : a.monitorId = id := by
  cases monitorInDb with
  | none => simp [sendAlert] at h
  | some monitor =>
    cases userId with
    | none => simp [sendAlert] at h
    | some uid =>
      unfold sendAlert at h
      dsimp only at h
      repeat' split at h
      all_goals dsimp only at h
      all_goals first
        | (injection h with h; rw [← h])
        | exact Option.noConfusion h

/-- A write of a worker processing monitor `mId` leaves the filtered view
of another monitor's events, the alert queue and every monitor's (id,
paused) data unchanged. -/
theorem applyWrite_preserves_other (mId : Nat) (target : Option UptimeEvent)
    (htarget : ∀ le, target = some le → le.monitorId = mId) (mid : Nat)
    (hne : mId ≠ mid) (st : TickState) (w : DbWrite)
    (hw : ∀ e, w = DbWrite.saveEvent e → e.monitorId = mId) :
    ((applyWrite mId target st w).events.filter (fun e => e.monitorId == mid) =
      st.events.filter (fun e => e.monitorId == mid)) ∧
    (applyWrite mId target st w).alerts = st.alerts ∧
    (applyWrite mId target st w).monitors.map (fun x => (x.id, x.isPaused)) =
      st.monitors.map (fun x => (x.id, x.isPaused)) := by
  cases w with
  | saveEvent e =>
    have hmid := hw e rfl
    have hb : (e.monitorId == mid) = false := by
      rw [hmid]
      exact beq_eq_false_iff_ne.mpr hne
    refine ⟨?_, rfl, rfl⟩
    show ((st.events ++ [e]).filter (fun e2 => e2.monitorId == mid)) = _
    rw [List.filter_append]
    simp [hb]
  | setEndTime t =>
    refine ⟨?_, rfl, rfl⟩
    cases htgt : target with
    | none => simp [applyWrite, htgt]
    | some le =>
      have hlm : le.monitorId ≠ mid := by
        rw [htarget le htgt]
        exact hne
      simp only [applyWrite, htgt]
      exact filter_map_setEnd mid t le hlm st.events
  | bumpUpdatedAt t =>
    exact ⟨rfl, rfl, map_idPaused_update mId t st.monitors⟩

/-- Iterated version of `applyWrite_preserves_other` over a write trace. -/
theorem foldl_applyWrite_preserves (mId : Nat) (target : Option UptimeEvent)
    (htarget : ∀ le, target = some le → le.monitorId = mId) (mid : Nat) (hne : mId ≠ mid) :
    ∀ (ws : List DbWrite) (st : TickState),
      (∀ e, DbWrite.saveEvent e ∈ ws → e.monitorId = mId) →
      ((ws.foldl (applyWrite mId target) st).events.filter (fun e => e.monitorId == mid) =
        st.events.filter (fun e => e.monitorId == mid)) ∧
      (ws.foldl (applyWrite mId target) st).alerts = st.alerts ∧
      (ws.foldl (applyWrite mId target) st).monitors.map (fun x => (x.id, x.isPaused)) =
        st.monitors.map (fun x => (x.id, x.isPaused))
  | [], _, _ => ⟨rfl, rfl, rfl⟩
  | w :: ws, st, hw => by
    have h1 := applyWrite_preserves_other mId target htarget mid hne st w
      (fun e he => hw e (by rw [he]; exact List.mem_cons_self _ _))
    have ih := foldl_applyWrite_preserves mId target htarget mid hne ws
      (applyWrite mId target st w) (fun e he => hw e (List.mem_cons_of_mem _ he))
    simp only [List.foldl_cons]
    exact ⟨ih.1.trans h1.1, ih.2.1.trans h1.2.1, ih.2.2.trans h1.2.2⟩

/-- The (fire-and-forget) alert call of a worker processing monitor `mId`
leaves another monitor's filtered alert queue, the event log and every
monitor's (id, paused) data unchanged. -/
theorem applyAlert_preserves_other (st : TickState)
    (call : Option (Option Nat × String × Nat)) (n : Int) (mid mId : Nat)
    (hne : mId ≠ mid)
    (hcall : ∀ u url i, call = some (u, url, i) → i = mId) :
    (applyAlert st call n).events = st.events ∧
    ((applyAlert st call n).alerts.filter (fun a => a.monitorId == mid) =
      st.alerts.filter (fun a => a.monitorId == mid)) ∧
    (applyAlert st call n).monitors.map (fun x => (x.id, x.isPaused)) =
      st.monitors.map (fun x => (x.id, x.isPaused)) := by
  cases call with
  | none => exact ⟨rfl, rfl, rfl⟩
  | some c =>
    obtain ⟨u, url, i⟩ := c
    have hi : i = mId := hcall u url i rfl
    cases h2 : (sendAlert u url i (st.monitors.find? (fun x => x.id == i)) n).2 with
    | none =>
      cases h1 : (sendAlert u url i (st.monitors.find? (fun x => x.id == i)) n).1 with
      | none =>
        have hstep : applyAlert st (some (u, url, i)) n = st := by
          simp [applyAlert, h2, h1]
        rw [hstep]
        exact ⟨rfl, rfl, rfl⟩
      | some a =>
        have ham : a.monitorId = mId := by
          rw [sendAlert_alert_monitorId u url i _ n a h1]
          exact hi
        have hb : (a.monitorId == mid) = false := by
          rw [ham]
          exact beq_eq_false_iff_ne.mpr hne
        have hstep : applyAlert st (some (u, url, i)) n =
            { st with alerts := st.alerts ++ [a] } := by
          simp [applyAlert, h2, h1]
        rw [hstep]
        refine ⟨rfl, ?_, rfl⟩
        show ((st.alerts ++ [a]).filter (fun a2 => a2.monitorId == mid)) = _
        rw [List.filter_append]
        simp [hb]
    | some mUpd =>
      cases h1 : (sendAlert u url i (st.monitors.find? (fun x => x.id == i)) n).1 with
      | none =>
        have hstep : applyAlert st (some (u, url, i)) n =
            { st with monitors := st.monitors.map (fun x =>
                if x.id == i then { x with lastAlertSentAt := mUpd.lastAlertSentAt }
                else x) } := by
          simp [applyAlert, h2, h1]
        rw [hstep]
        exact ⟨rfl, rfl, map_idPaused_alert_update i mUpd.lastAlertSentAt st.monitors⟩
      | some a =>
        have ham : a.monitorId = mId := by
          rw [sendAlert_alert_monitorId u url i _ n a h1]
          exact hi
        have hb : (a.monitorId == mid) = false := by
          rw [ham]
          exact beq_eq_false_iff_ne.mpr hne
        have hstep : applyAlert st (some (u, url, i)) n =
            { st with
                monitors := st.monitors.map (fun x =>
                  if x.id == i then { x with lastAlertSentAt := mUpd.lastAlertSentAt }
                  else x)
                alerts := st.alerts ++ [a] } := by
          simp [applyAlert, h2, h1]
        rw [hstep]
        refine ⟨rfl, ?_, map_idPaused_alert_update i mUpd.lastAlertSentAt st.monitors⟩
        show ((st.alerts ++ [a]).filter (fun a2 => a2.monitorId == mid)) = _
        rw [List.filter_append]
        simp [hb]

/-- A full worker run for monitor `m` leaves another monitor's filtered
events and alerts, and every monitor's (id, paused) data, unchanged. -/
theorem applyStep_preserves_other (st : TickState) (m : Monitor) (res : StepResult)
    (n : Int) (mid : Nat) (hne : m.id ≠ mid)
    (hids : ∀ e, DbWrite.saveEvent e ∈ res.writes → e.monitorId = m.id)
    (halert : ∀ u url i, res.alertCall = some (u, url, i) → i = m.id) :
    ((applyStep st m res n).events.filter (fun e => e.monitorId == mid) =
      st.events.filter (fun e => e.monitorId == mid)) ∧
    ((applyStep st m res n).alerts.filter (fun a => a.monitorId == mid) =
      st.alerts.filter (fun a => a.monitorId == mid)) ∧
    (applyStep st m res n).monitors.map (fun x => (x.id, x.isPaused)) =
      st.monitors.map (fun x => (x.id, x.isPaused)) := by
  have htarget : ∀ le, latestEventFor st.events m.id = some le → le.monitorId = m.id :=
    fun le h => latestEventFor_monitorId st.events m.id le h
  have hAl := applyAlert_preserves_other st res.alertCall n mid m.id hne halert
  have hF := foldl_applyWrite_preserves m.id (latestEventFor st.events m.id) htarget mid
    hne res.writes (applyAlert st res.alertCall n) hids
  simp only [applyStep]
  refine ⟨?_, ?_, ?_⟩
  · rw [hF.1, hAl.1]
  · rw [hF.2.1]
    exact hAl.2.1
  · rw [hF.2.2]
    exact hAl.2.2

/-- Processing a due list containing no monitor with id `mid` leaves that
monitor's filtered events and alerts, and every monitor's (id, paused)
data, unchanged. -/
theorem runDue_preserves (agents : List String) (penv : Nat → ProbeEnv)
    (clocks : Nat → Nat → Int) (mid : Nat) :
    ∀ (due : List Monitor) (i idx : Nat) (st : TickState) (acc : Nat),
      (∀ m ∈ due, m.id ≠ mid) →
      (((runDue agents penv clocks due i idx st acc).1.events.filter
          (fun e => e.monitorId == mid)) =
        st.events.filter (fun e => e.monitorId == mid)) ∧
      (((runDue agents penv clocks due i idx st acc).1.alerts.filter
          (fun a => a.monitorId == mid)) =
        st.alerts.filter (fun a => a.monitorId == mid)) ∧
      ((runDue agents penv clocks due i idx st acc).1.monitors.map
          (fun x => (x.id, x.isPaused)) =
        st.monitors.map (fun x => (x.id, x.isPaused)))
  | [], _, _, _, _, _ => ⟨rfl, rfl, rfl⟩
  | m :: rest, i, idx, st, acc, hdue => by
    have hm : m.id ≠ mid := hdue m (List.mem_cons_self m rest)
    have hw := processMonitor_write_ids agents idx st.events m (penv i) (clocks i)
    have hstep := applyStep_preserves_other st m
      (processMonitor agents idx st.events m (penv i) (clocks i)) (clocks i 5) mid hm
      hw.1 hw.2
    have ih := runDue_preserves agents penv clocks mid rest (i + 1)
      (processMonitor agents idx st.events m (penv i) (clocks i)).nextUrlIndex
      (applyStep st m (processMonitor agents idx st.events m (penv i) (clocks i)) (clocks i 5))
      (acc + (processMonitor agents idx st.events m (penv i) (clocks i)).probeUrls.length)
      (fun x hx => hdue x (List.mem_cons_of_mem _ hx))
    simp only [runDue]
    exact ⟨ih.1.trans hstep.1, ih.2.1.trans hstep.2.1, ih.2.2.trans hstep.2.2⟩

/-- One tick never touches a monitor id all of whose monitors are paused,
and paused monitors stay paused. -/
theorem performTick_preserves_paused (agents : List String) (penv : Nat → ProbeEnv)
    (clocks : Nat → Nat → Int) (now : Int) (st : TickState) (idx : Nat) (mid : Nat)
    (hp : ∀ m ∈ st.monitors, m.id = mid → m.isPaused = true) :
    ((performTick agents penv clocks now st idx).1.events.filter
        (fun e => e.monitorId == mid) =
      st.events.filter (fun e => e.monitorId == mid)) ∧
    ((performTick agents penv clocks now st idx).1.alerts.filter
        (fun a => a.monitorId == mid) =
      st.alerts.filter (fun a => a.monitorId == mid)) ∧
    (∀ m2 ∈ (performTick agents penv clocks now st idx).1.monitors,
      m2.id = mid → m2.isPaused = true) := by
  unfold performTick
  split
  · exact ⟨rfl, rfl, hp⟩
  · have hdue : ∀ m ∈ st.monitors.filter (dueFilter now), m.id ≠ mid := by
      intro m hm hid
      have hmem := List.mem_of_mem_filter hm
      have hfil := List.of_mem_filter hm
      have hpaused := hp m hmem hid
      simp [dueFilter, hpaused] at hfil
    have hrun := runDue_preserves agents penv clocks mid
      (st.monitors.filter (dueFilter now)) 0 idx st 0 hdue
    refine ⟨hrun.1, hrun.2.1, ?_⟩
    intro m2 hm2 hid2
    have h1 : (m2.id, m2.isPaused) ∈
        (runDue agents penv clocks (st.monitors.filter (dueFilter now)) 0 idx st 0).1.monitors.map
          (fun x => (x.id, x.isPaused)) :=
      List.mem_map_of_mem _ hm2
    rw [hrun.2.2] at h1
    obtain ⟨m3, hm3, heq⟩ := List.mem_map.mp h1
    have hid3 : m3.id = m2.id := congrArg Prod.fst heq
    have hip3 : m3.isPaused = m2.isPaused := congrArg Prod.snd heq
    rw [← hip3]
    exact hp m3 hm3 (hid3.trans hid2)

/-- C7: a paused monitor never gains uptime events or alerts across any
number of ticks — the due-set query excludes paused monitors, so no
worker ever runs for them. Stated for a monitor id `mid` all of whose
documents are paused: after any sequence of ticks, the event log and the
alert queue restricted to `mid` are exactly what they were before. -/
theorem C7_paused_untouched (L : List TickEnv) (st : TickState) (idx : Nat) (mid : Nat)
    (hp : ∀ m ∈ st.monitors, m.id = mid → m.isPaused = true) :
    ((applyTicks L st idx).1.events.filter (fun e => e.monitorId == mid) =
      st.events.filter (fun e => e.monitorId == mid)) ∧
    ((applyTicks L st idx).1.alerts.filter (fun a => a.monitorId == mid) =
      st.alerts.filter (fun a => a.monitorId == mid)) := by
  induction L generalizing st idx with
  | nil => exact ⟨rfl, rfl⟩
  | cons e rest ih =>
    have htick := performTick_preserves_paused e.agents e.penv e.clocks e.now st idx mid hp
    have ihr := ih (performTick e.agents e.penv e.clocks e.now st idx).1
      (performTick e.agents e.penv e.clocks e.now st idx).2.1 htick.2.2
    simp only [applyTicks]
    exact ⟨ihr.1.trans htick.1, ihr.2.trans htick.2.1⟩

/-- Witness for C7: one paused monitor (id 5), one tick. -/
theorem C7_paused_untouched_witness :
    (∀ m ∈ w7st.monitors, m.id = 5 → m.isPaused = true) ∧
    ((applyTicks [w7env] w7st 0).1.events.filter (fun e => e.monitorId == 5) =
      w7st.events.filter (fun e => e.monitorId == 5)) :=
  ⟨by decide, (C7_paused_untouched [w7env] w7st 0 5 (by decide)).1⟩

end Manager
